import Mathlib

/-!
Shallow embedding of the Pull Request Bot server (`webhooks/server.py`).

The server reacts to GitHub pull-request webhooks: on `opened`/`reopened` it
prepends a Pivotal Tracker story link to the description, on `edited` it
validates the description against a fixed rule registry and posts a comment.
Pure logic (rule evaluation, qualification, string manipulation) is embedded
as Lean functions; the HTTP layer is embedded as a function from a request
body and a `World` (the remote platform's responses) to the emitted remote
calls and the HTTP response.
-/

namespace Webhooks

/-- Python truthiness of an optional string field read from a JSON payload
with `payload.get(k)`: truthy exactly when the field is present and the
string is non-empty. -/
def pyTruthy : Option String → Bool
  | none => false
  | some s => s != ""

/-- Models Python `str.split(sep)` for a one-character separator, at the
character-list level: `''.split(sep) == ['']`, and separators delimit
(possibly empty) fields. -/
def pySplitChar (sep : Char) : List Char → List (List Char)
  | [] => [[]]
  | c :: rest =>
    if c = sep then
      [] :: pySplitChar sep rest
    else
      match pySplitChar sep rest with
      | [] => [[c]]
      | x :: xs => (c :: x) :: xs

/-- Models Python `str.split(sep)` for a one-character separator on strings. -/
def pySplit (sep : Char) (s : String) : List String :=
  (pySplitChar sep s.data).map (fun l => String.mk l)

/-- Models Python's substring test `needle in hay` at the character-list
level: the needle occurs as a prefix at some suffix of the haystack. -/
def containsSub (needle : List Char) : List Char → Bool
  | [] => needle.isEmpty
  | c :: rest => needle.isPrefixOf (c :: rest) || containsSub needle rest

/-- Models Python's substring test `needle in hay`. -/
def strContains (hay needle : String) : Bool :=
  containsSub needle.data hay.data

/-- The two built-in reducers a `Rule` may carry: Python's `any` and `all`
(server.py passes the builtins themselves as `quantifier`). -/
inductive Quantifier where
  | any
  | all
deriving DecidableEq, Repr

/-- Embeds the `Rule` class of server.py: a human-readable description, a
quantifier (`any` or `all`), and a per-line predicate `fn`. -/
structure Rule where
  desc : String
  quantifier : Quantifier
  fn : String → Bool

/-- Embeds `Rule.validate`: apply `fn` to every line, reduce the resulting
booleans with the quantifier; return `none` when satisfied, otherwise the
rule's description. -/
def Rule.validate (r : Rule) (lines : List String) : Option String :=
  let results := lines.map r.fn
  let satisfied :=
    match r.quantifier with
    | Quantifier.any => results.any id
    | Quantifier.all => results.all id
  if satisfied then none else some r.desc

/-- Embeds the `PR_RULES` dict of server.py as an association list in
insertion order (`story` first, then `todo`); Python 3 dicts preserve
insertion order. -/
def PR_RULES : List (String × Rule) :=
  [("story", { desc := "should have story link",
               quantifier := Quantifier.any,
               fn := fun x => strContains x "story: " }),
   ("todo", { desc := "all todos should be done",
              quantifier := Quantifier.all,
              fn := fun x => !(strContains x "- [ ]") })]

/-- Embeds the module constant `GITHUB_OWNER`. -/
def GITHUB_OWNER : String := "kelvintaywl"

/-- Embeds the module constant `GITHUB_REPO`. -/
def GITHUB_REPO : String := "pull_requests"

/-- The process environment as far as server.py reads it:
`os.getenv('GITHUB_IGNORE_LABEL', ...)`; `none` models an unset variable. -/
structure Env where
  github_ignore_label : Option String

/-- Embeds the module constant `GITHUB_IGNORE_LABEL`, i.e.
`os.getenv('GITHUB_IGNORE_LABEL', 'pr_ignore')`. -/
def GITHUB_IGNORE_LABEL (env : Env) : String :=
  env.github_ignore_label.getD "pr_ignore"

/-- Embeds Python's `dict.pop(key)` on the association-list representation:
removes the (unique) entry with the given key, or raises `KeyError` when the
key is absent. -/
def popRule (rules : List (String × Rule)) (name : String) :
    Except String (List (String × Rule)) :=
  if rules.any (fun p => p.1 == name) then
    Except.ok (rules.eraseP (fun p => p.1 == name))
  else
    Except.error ("KeyError: " ++ name)

/-- Embeds the loop `for rule_name in ignore_list: rules.pop(rule_name)` of
`_qualify_description`: sequential pops, failing at the first absent key. -/
def popRules : List (String × Rule) → List String → Except String (List (String × Rule))
  | rules, [] => Except.ok rules
  | rules, n :: ns =>
    match popRule rules n with
    | Except.error e => Except.error e
    | Except.ok rules' => popRules rules' ns

/-- The pair returned by `_qualify_description` (the spec's ValidationResult):
`ok` flag and the ordered violation descriptions. -/
structure ValidationResult where
  ok : Bool
  violations : List String
deriving DecidableEq, Repr

/-- Embeds the generator `_yield_rule_adherence`: one `validate` result per
rule, in rule order. -/
def _yield_rule_adherence (rules : List Rule) (lines : List String) :
    List (Option String) :=
  rules.map (fun r => r.validate lines)

/-- Embeds `_qualify_description` with the rule registry threaded as explicit
state: the Python body copies the global dict (`rules = PR_RULES.copy()`),
pops excluded names from the copy (a missing name raises `KeyError`), collects
the non-`None` validate results in registry order, and computes
`ok = bool(not any(issues))` (Python `any` over strings tests non-emptiness).
The second component is the registry after the call; the copy means the
global registry is returned unchanged. -/
def _qualify_descriptionS (registry : List (String × Rule)) (description : String)
    (ignore_list : List String) :
    Except String ValidationResult × List (String × Rule) :=
  let lines := pySplit '\n' description
  let res :=
    match popRules registry ignore_list with
    | Except.error e => Except.error e
    | Except.ok rules =>
      let issues := (_yield_rule_adherence (rules.map Prod.snd) lines).filterMap id
      Except.ok { ok := !(issues.any (fun i => i != "")), violations := issues }
  (res, registry)

/-- Embeds `_qualify_description(description, ignore_list)` acting on the
global `PR_RULES` registry. -/
def _qualify_description (description : String) (ignore_list : List String) :
    Except String ValidationResult :=
  (_qualify_descriptionS PR_RULES description ignore_list).1

/-- The authenticated GitHub API requests the `Github` client class can issue
(`get_pull_request`, `update_pull_request`, `comment_on_pull_request`,
`get_issue`), recorded as observable effects with the owner/repo they target.
`id` is `payload.get('number')`, hence optional. -/
inductive RemoteCall where
  | getPullRequest (owner repo : String) (id : Option Nat)
  | updatePullRequest (owner repo : String) (id : Option Nat)
      (title body state : String)
  | commentOnPullRequest (owner repo : String) (id : Option Nat) (comment : String)
  | getIssue (owner repo : String) (id : Option Nat)
deriving DecidableEq, Repr

/-- The fields of the remote pull-request resource that server.py reads:
`title`, `body`, and `head.ref`. -/
structure PullRequest where
  title : String
  body : String
  headRef : String
deriving DecidableEq, Repr

/-- The remote platform's responses and the static text assets, fixed for one
request: the pull request returned by `get_pull_request`, the label names on
the issue returned by `get_issue`, and the contents of
`static/good_comment.txt` and `static/issues.txt`. -/
structure World where
  pr : PullRequest
  labels : List String
  goodComment : String
  issuesTemplate : String
deriving DecidableEq, Repr

/-- Embeds `_prefix_story_link_in_pull_request`: fetch the pull request,
derive the ticket id as `head.ref.split('-')[0]`, build the story link, and
patch the pull request with the unchanged title, the new body
`"story: {link}\r\n\n{original body}"` and the default state `open`.
Returns the remote calls issued, in order. -/
def _prefix_story_link_in_pull_request (w : World) (owner repo : String)
    (id : Option Nat) : List RemoteCall :=
  let pr := w.pr
  let title := pr.title
  let link := "https://pivotaltracker.com/story/show/" ++ (pySplit '-' pr.headRef).headI
  let body := "story: " ++ link ++ "\r\n\n" ++ pr.body
  [RemoteCall.getPullRequest owner repo id,
   RemoteCall.updatePullRequest owner repo id title body "open"]

/-- Models Python single-placeholder `str.format` at the character-list level:
scan left to right, replace each occurrence of `pat`, continue after the
replaced occurrence. Fuel-based structural recursion so terms reduce by
`rfl`; the fuel is always the haystack length, which suffices because each
step consumes at least one character. -/
def pyFormatAux (pat repl : List Char) : Nat → List Char → List Char
  | _, [] => []
  | 0, s => s
  | fuel + 1, c :: rest =>
    if pat.isPrefixOf (c :: rest) then
      repl ++ pyFormatAux pat repl fuel (rest.drop (pat.length - 1))
    else
      c :: pyFormatAux pat repl fuel rest

/-- Models `template.format(issues=...)` in `_validate_pull_request_description`:
the issues template contains the single placeholder, replaced by the rendered
violation list. -/
def pyFormatIssues (template : String) (issues_printed : String) : String :=
  String.mk (pyFormatAux "{issues}".data issues_printed.data
    template.data.length template.data)

/-- Embeds `_validate_pull_request_description`: fetch the pull request and
its issue; when the literal label name `'pr_ignore'` occurs among the issue's
labels, the ignore list becomes all registry keys (note: the code compares
against the literal string, not `GITHUB_IGNORE_LABEL`); qualify the body; post
the good comment when ok, else the issues template with the violations
rendered as `'\n- '.join([''] + issues)`. Returns the remote calls issued, in
order; a `KeyError` from qualification propagates as `Except.error`. -/
def _validate_pull_request_description (w : World) (owner repo : String)
    (id : Option Nat) : Except String (List RemoteCall) :=
  let body := w.pr.body
  let ignore_list :=
    if w.labels.contains "pr_ignore" then PR_RULES.map Prod.fst else []
  match _qualify_description body ignore_list with
  | Except.error e => Except.error e
  | Except.ok r =>
    let comment :=
      if r.ok then
        w.goodComment
      else
        pyFormatIssues w.issuesTemplate
          (String.intercalate "\n- " ("" :: r.violations))
    Except.ok [RemoteCall.getPullRequest owner repo id,
               RemoteCall.getIssue owner repo id,
               RemoteCall.commentOnPullRequest owner repo id comment]

/-- The fields of the inbound webhook payload that
`_handle_github_pull_request_event` reads, each as read by `payload.get`:
`repo.full_name` (`some` when the `repo` field is present and truthy),
`zen`, `action`, and `number`. -/
structure Payload where
  repo : Option String
  zen : Option String
  action : Option String
  number : Option Nat
deriving DecidableEq, Repr

/-- Embeds the owner/repo routing at the top of
`_handle_github_pull_request_event`: default to the module constants; when the
payload carries a repo, `owner, repo = full_name.split('/', 1)[:2]` — a
`full_name` without `'/'` makes the unpacking raise `ValueError`. -/
def resolveOwnerRepo (p : Payload) : Except String (String × String) :=
  match p.repo with
  | none => Except.ok (GITHUB_OWNER, GITHUB_REPO)
  | some full =>
    match pySplitChar '/' full.data with
    | [_] => Except.error "ValueError: not enough values to unpack"
    | a :: rest => Except.ok (String.mk a, String.mk (List.intercalate ['/'] rest))
    | [] => Except.error "unreachable: split never returns an empty list"

/-- Outcome of `_handle_github_pull_request_event`: an uncaught Python
exception (`crash`), the returned `ValueError` for a missing action
(`dispatchError`), or normal completion with the remote calls issued. -/
inductive Outcome where
  | crash (msg : String)
  | dispatchError (msg : String)
  | success (calls : List RemoteCall)
deriving DecidableEq, Repr

/-- Embeds `_handle_github_pull_request_event`: resolve owner/repo (possibly
crashing), short-circuit on a truthy `zen`, then branch on a truthy `action`:
`opened`/`reopened` runs the link-prefixing action, `edited` runs description
validation, any other truthy action is a no-op success; a falsy or absent
action returns the `ValueError` (dispatch error). -/
def _handle_github_pull_request_event (w : World) (p : Payload) : Outcome :=
  match resolveOwnerRepo p with
  | Except.error e => Outcome.crash e
  | Except.ok (owner, repo) =>
    if pyTruthy p.zen then
      Outcome.success []
    else
      let action := p.action
      let id := p.number
      if pyTruthy action then
        let calls1 :=
          if action == some "opened" || action == some "reopened" then
            _prefix_story_link_in_pull_request w owner repo id
          else []
        if action == some "edited" then
          match _validate_pull_request_description w owner repo id with
          | Except.error e => Outcome.crash e
          | Except.ok calls2 => Outcome.success (calls1 ++ calls2)
        else
          Outcome.success calls1
      else
        Outcome.dispatchError "unable to process action from Github hook"

/-- The request body of the webhook endpoint after
`flask.request.get_json(force=True, silent=True)`: `noPayload` when the body
is missing or unparseable (`get_json` returns `None`), `falsy` when it parses
to a falsy value (such as the empty JSON object `\x7b\x7d`), `truthy` when it
parses to a truthy value, with the modelled fields extracted. -/
inductive ParsedBody where
  | noPayload
  | falsy
  | truthy (p : Payload)
deriving DecidableEq, Repr

/-- Embeds the `github_payload` endpoint: `if not payload: abort(400)`; a
truthy error value returned by the handler (or an uncaught exception)
produces HTTP 500; otherwise HTTP 200 with body `'beep boop'`. Result is
(status code, response body). -/
def github_payload (w : World) (b : ParsedBody) : Nat × Option String :=
  match b with
  | ParsedBody.noPayload => (400, none)
  | ParsedBody.falsy => (400, none)
  | ParsedBody.truthy p =>
    match _handle_github_pull_request_event w p with
    | Outcome.crash _ => (500, none)
    | Outcome.dispatchError _ => (500, none)
    | Outcome.success _ => (200, some "beep boop")

/-- A sample world used by the concrete counterexample evaluations. -/
def sampleWorld : World :=
  { pr := { title := "Add X", body := "Fixes stuff", headRef := "42-add-x" },
    labels := [], goodComment := "LGTM", issuesTemplate := "issues:{issues}" }

/-- An environment configuring a non-default ignore label. -/
def bugEnv : Env := { github_ignore_label := some "skip_all" }

/-- A world whose issue carries exactly the configured (non-default) ignore
label, with a description violating the story rule. -/
def bugWorld : World :=
  { pr := { title := "Add X", body := "no link here", headRef := "1-x" },
    labels := ["skip_all"], goodComment := "LGTM",
    issuesTemplate := "issues:{issues}" }

/-- The same world but labelled with the literal `pr_ignore`, which is not the
configured ignore label of `bugEnv`. -/
def bugWorld2 : World :=
  { pr := { title := "Add X", body := "no link here", headRef := "1-x" },
    labels := ["pr_ignore"], goodComment := "LGTM",
    issuesTemplate := "issues:{issues}" }

/-! ## Helper lemmas -/

theorem any_map_id (l : List String) (f : String → Bool) :
    (l.map f).any id = l.any f := by
  induction l with
  | nil => rfl
  | cons x xs ih => simp [List.any_cons, ih]

theorem all_map_id (l : List String) (f : String → Bool) :
    (l.map f).all id = l.all f := by
  induction l with
  | nil => rfl
  | cons x xs ih => simp [List.all_cons, ih]

theorem validate_any_eq (r : Rule) (lines : List String)
    (hq : r.quantifier = Quantifier.any) :
    r.validate lines = if lines.any r.fn then none else some r.desc := by
  have hcond : (lines.map r.fn).any id = lines.any r.fn := any_map_id lines r.fn
  dsimp only [Rule.validate]
  rw [hq]
  dsimp only
  rw [hcond]

theorem validate_all_eq (r : Rule) (lines : List String)
    (hq : r.quantifier = Quantifier.all) :
    r.validate lines = if lines.all r.fn then none else some r.desc := by
  have hcond : (lines.map r.fn).all id = lines.all r.fn := all_map_id lines r.fn
  dsimp only [Rule.validate]
  rw [hq]
  dsimp only
  rw [hcond]

theorem validate_eq_none_any (r : Rule) (lines : List String)
    (hq : r.quantifier = Quantifier.any) :
    r.validate lines = none ↔ lines.any r.fn = true := by
  rw [validate_any_eq r lines hq]
  cases h : lines.any r.fn <;> simp [h]

theorem validate_eq_none_all (r : Rule) (lines : List String)
    (hq : r.quantifier = Quantifier.all) :
    r.validate lines = none ↔ lines.all r.fn = true := by
  rw [validate_all_eq r lines hq]
  cases h : lines.all r.fn <;> simp [h]

theorem validate_none_or_desc (r : Rule) (lines : List String) :
    r.validate lines = none ∨ r.validate lines = some r.desc := by
  dsimp only [Rule.validate]
  split
  · exact Or.inl rfl
  · exact Or.inr rfl

theorem validate_eq_some_desc (r : Rule) (lines : List String) (s : String)
    (h : r.validate lines = some s) : s = r.desc := by
  rcases validate_none_or_desc r lines with h' | h' <;> rw [h'] at h
  · cases h
  · exact (Option.some_inj.mp h).symm

theorem popRule_ok_sublist {rules rules' : List (String × Rule)} {n : String}
    (h : popRule rules n = Except.ok rules') : rules'.Sublist rules := by
  unfold popRule at h
  split at h
  · cases h; exact List.eraseP_sublist rules
  · cases h

theorem popRule_ok_key {rules rules' : List (String × Rule)} {n : String}
    (h : popRule rules n = Except.ok rules') :
    rules.any (fun p => p.1 == n) = true := by
  by_cases hc : rules.any (fun p => p.1 == n) = true
  · exact hc
  · simp only [popRule, if_neg hc] at h
    cases h

theorem popRules_ok_sublist :
    ∀ (l : List String) (rules rules' : List (String × Rule)),
      popRules rules l = Except.ok rules' → rules'.Sublist rules := by
  intro l
  induction l with
  | nil =>
    intro rules rules' h
    cases h
    exact List.Sublist.refl rules
  | cons n ns ih =>
    intro rules rules' h
    cases hp : popRule rules n with
    | error e => rw [popRules, hp] at h; cases h
    | ok mid =>
      rw [popRules, hp] at h
      exact (ih mid rules' h).trans (popRule_ok_sublist hp)

theorem popRules_error_of_unknown :
    ∀ (l : List String) (rules : List (String × Rule)) (n : String),
      n ∈ l → (∀ p ∈ rules, p.1 ≠ n) →
      ∃ e, popRules rules l = Except.error e := by
  intro l
  induction l with
  | nil =>
    intro rules n hn
    cases hn
  | cons m ms ih =>
    intro rules n hn hunknown
    cases hp : popRule rules m with
    | error e => exact ⟨e, by rw [popRules, hp]⟩
    | ok mid =>
      rcases List.mem_cons.mp hn with rfl | hn'
      · have hk := popRule_ok_key hp
        rw [List.any_eq_true] at hk
        obtain ⟨p, hpmem, hpk⟩ := hk
        exact absurd (by simpa using hpk) (hunknown p hpmem)
      · obtain ⟨e, he⟩ :=
          ih mid n hn' (fun p hp' => hunknown p ((popRule_ok_sublist hp).subset hp'))
        exact ⟨e, by rw [popRules, hp]; exact he⟩

theorem PR_RULES_desc_ne_empty (p : String × Rule) (hp : p ∈ PR_RULES) :
    p.2.desc ≠ "" := by
  simp only [PR_RULES, List.mem_cons, List.mem_singleton] at hp
  rcases hp with rfl | hp
  · decide
  · rcases hp with rfl | hp
    · decide
    · cases hp

theorem pySplitChar_ne_nil (sep : Char) (s : List Char) : pySplitChar sep s ≠ [] := by
  induction s with
  | nil => simp [pySplitChar]
  | cons c rest ih =>
    simp only [pySplitChar]
    split
    · simp
    · split
      · simp
      · simp

theorem pySplitChar_cons_ne (sep c : Char) (rest x : List Char) (xs : List (List Char))
    (hc : ¬c = sep) (hsp : pySplitChar sep rest = x :: xs) :
    pySplitChar sep (c :: rest) = (c :: x) :: xs := by
  simp only [pySplitChar, if_neg hc, hsp]

theorem pySplitChar_headI_spec (sep : Char) (s : List Char) :
    sep ∉ (pySplitChar sep s).headI ∧
      (s = (pySplitChar sep s).headI ∨
        ∃ rest, s = (pySplitChar sep s).headI ++ sep :: rest) := by
  induction s with
  | nil =>
    constructor
    · simp [pySplitChar]
    · left; simp [pySplitChar]
  | cons c rest ih =>
    obtain ⟨ih1, ih2⟩ := ih
    by_cases hc : c = sep
    · subst hc
      refine ⟨by simp [pySplitChar], Or.inr ⟨rest, by simp [pySplitChar]⟩⟩
    · cases hsp : pySplitChar sep rest with
      | nil => exact absurd hsp (pySplitChar_ne_nil sep rest)
      | cons x xs =>
        rw [pySplitChar_cons_ne sep c rest x xs hc hsp]
        rw [hsp] at ih1 ih2
        simp only [List.headI] at ih1 ih2 ⊢
        constructor
        · intro hmem
          rcases List.mem_cons.mp hmem with heq | hmem'
          · exact hc heq.symm
          · exact ih1 hmem'
        · rcases ih2 with h | ⟨r, hr⟩
          · left; rw [← h]
          · right; exact ⟨r, by rw [hr]; rfl⟩

theorem pySplitChar_length_one_iff (sep : Char) (s : List Char) :
    (pySplitChar sep s).length = 1 ↔ sep ∉ s := by
  induction s with
  | nil => simp [pySplitChar]
  | cons c rest ih =>
    by_cases hc : c = sep
    · subst hc
      have hred : pySplitChar c (c :: rest) = [] :: pySplitChar c rest := by
        simp [pySplitChar]
      rw [hred, List.length_cons]
      constructor
      · intro h
        exfalso
        have hne := pySplitChar_ne_nil c rest
        have h0 : (pySplitChar c rest).length = 0 := Nat.succ_injective h
        exact hne (List.length_eq_zero.mp h0)
      · intro h
        exact absurd (List.mem_cons_self c rest) h
    · cases hsp : pySplitChar sep rest with
      | nil => exact absurd hsp (pySplitChar_ne_nil sep rest)
      | cons x xs =>
        rw [pySplitChar_cons_ne sep c rest x xs hc hsp]
        rw [hsp] at ih
        simp only [List.length_cons] at ih ⊢
        rw [ih]
        constructor
        · intro h hmem
          rcases List.mem_cons.mp hmem with heq | hmem'
          · exact hc heq.symm
          · exact h hmem'
        · intro h hmem
          exact h (List.mem_cons_of_mem c hmem)

theorem pySplit_headI (sep : Char) (s : String) :
    (pySplit sep s).headI = String.mk ((pySplitChar sep s.data).headI) := by
  unfold pySplit
  cases h : pySplitChar sep s.data with
  | nil => exact absurd h (pySplitChar_ne_nil sep s.data)
  | cons x xs => simp [List.headI]

theorem ok_flag_iff_of_ne_empty (issues : List String) (hne : ∀ i ∈ issues, i ≠ "") :
    (!(issues.any (fun i => i != ""))) = true ↔ issues = [] := by
  cases issues with
  | nil => simp
  | cons x xs =>
    have hx : x ≠ "" := hne x (List.mem_cons_self x xs)
    simp [List.any_cons, hx]

theorem resolveOwnerRepo_none (p : Payload) (h : p.repo = none) :
    resolveOwnerRepo p = Except.ok (GITHUB_OWNER, GITHUB_REPO) := by
  unfold resolveOwnerRepo
  rw [h]

theorem resolveOwnerRepo_ok_of_contains (p : Payload) (full : String)
    (h : p.repo = some full) (hs : '/' ∈ full.data) :
    ∃ a b, resolveOwnerRepo p = Except.ok (a, b) := by
  unfold resolveOwnerRepo
  rw [h]
  dsimp only
  cases hsp : pySplitChar '/' full.data with
  | nil => exact absurd hsp (pySplitChar_ne_nil '/' full.data)
  | cons x xs =>
    cases xs with
    | nil =>
      exfalso
      have hone : (pySplitChar '/' full.data).length = 1 := by rw [hsp]; rfl
      exact ((pySplitChar_length_one_iff '/' full.data).mp hone) hs
    | cons y ys =>
      exact ⟨_, _, rfl⟩

theorem resolveOwnerRepo_error_of_not_contains (p : Payload) (full : String)
    (h : p.repo = some full) (hs : '/' ∉ full.data) :
    ∃ e, resolveOwnerRepo p = Except.error e := by
  unfold resolveOwnerRepo
  rw [h]
  dsimp only
  have hone : (pySplitChar '/' full.data).length = 1 :=
    (pySplitChar_length_one_iff '/' full.data).mpr hs
  cases hsp : pySplitChar '/' full.data with
  | nil => exact absurd hsp (pySplitChar_ne_nil '/' full.data)
  | cons x xs =>
    cases xs with
    | nil =>
      exact ⟨_, rfl⟩
    | cons y ys =>
      exfalso
      rw [hsp] at hone
      simp at hone

theorem validate_always_ok (w : World) (owner repo : String) (id : Option Nat) :
    ∃ calls, _validate_pull_request_description w owner repo id = Except.ok calls := by
  unfold _validate_pull_request_description
  dsimp only
  by_cases hl : w.labels.contains "pr_ignore" = true
  · rw [if_pos hl]
    exact ⟨_, rfl⟩
  · rw [if_neg hl]
    exact ⟨_, rfl⟩

theorem handle_success_of_truthy (w : World) (p : Payload) (owner repo : String)
    (hro : resolveOwnerRepo p = Except.ok (owner, repo))
    (hza : pyTruthy p.zen = true ∨ pyTruthy p.action = true) :
    ∃ calls, _handle_github_pull_request_event w p = Outcome.success calls := by
  unfold _handle_github_pull_request_event
  rw [hro]
  dsimp only
  by_cases hz : pyTruthy p.zen = true
  · rw [if_pos hz]
    exact ⟨[], rfl⟩
  · have ha : pyTruthy p.action = true := by tauto
    rw [if_neg hz, if_pos ha]
    by_cases he : (p.action == some "edited") = true
    · rw [if_pos he]
      obtain ⟨calls, hc⟩ := validate_always_ok w owner repo p.number
      rw [hc]
      exact ⟨_, rfl⟩
    · rw [if_neg he]
      exact ⟨_, rfl⟩

theorem handle_dispatch_error (w : World) (p : Payload) (owner repo : String)
    (hro : resolveOwnerRepo p = Except.ok (owner, repo))
    (hz : pyTruthy p.zen = false) (ha : pyTruthy p.action = false) :
    _handle_github_pull_request_event w p =
      Outcome.dispatchError "unable to process action from Github hook" := by
  unfold _handle_github_pull_request_event
  rw [hro]
  dsimp only
  rw [if_neg (by simp [hz]), if_neg (by simp [ha])]

theorem handle_crash_of_resolve_error (w : World) (p : Payload) (e : String)
    (hro : resolveOwnerRepo p = Except.error e) :
    _handle_github_pull_request_event w p = Outcome.crash e := by
  unfold _handle_github_pull_request_event
  rw [hro]

/-! ## Claim theorems -/

/-- C2: `Rule.validate` applies the rule's predicate to each line and reduces
with the rule's quantifier: with quantifier ANY it returns `none` exactly when
at least one line satisfies the predicate, with quantifier ALL exactly when
every line satisfies it; otherwise it returns the rule's human-readable
description. -/
theorem rule_validate_quantifier_characterization (r : Rule) (lines : List String) :
    (r.quantifier = Quantifier.any →
      (r.validate lines = none ↔ ∃ line ∈ lines, r.fn line = true)) ∧
    (r.quantifier = Quantifier.all →
      (r.validate lines = none ↔ ∀ line ∈ lines, r.fn line = true)) ∧
    (r.validate lines = none ∨ r.validate lines = some r.desc) := by
  refine ⟨?_, ?_, validate_none_or_desc r lines⟩
  · intro hq
    rw [validate_eq_none_any r lines hq, List.any_eq_true]
  · intro hq
    rw [validate_eq_none_all r lines hq, List.all_eq_true]

/-- C3: every description that, after splitting on newline, has at least one
line containing the substring `"story: "` and no line containing `"- [ ]"`,
qualifies with an empty exclusion set: `ok = true`, no violations. -/
theorem qualify_accepts_good_description (d : String)
    (hstory : ∃ line ∈ pySplit '\n' d, strContains line "story: " = true)
    (htodo : ∀ line ∈ pySplit '\n' d, strContains line "- [ ]" = false) :
    _qualify_description d [] = Except.ok { ok := true, violations := [] } := by
  have hv1 : Rule.validate
      { desc := "should have story link", quantifier := Quantifier.any,
        fn := fun x => strContains x "story: " } (pySplit '\n' d) = none := by
    rw [validate_any_eq _ _ rfl]
    have hany : (pySplit '\n' d).any (fun l => strContains l "story: ") = true :=
      List.any_eq_true.mpr hstory
    simp only at hany ⊢
    rw [hany]
    rfl
  have hv2 : Rule.validate
      { desc := "all todos should be done", quantifier := Quantifier.all,
        fn := fun x => !(strContains x "- [ ]") } (pySplit '\n' d) = none := by
    rw [validate_all_eq _ _ rfl]
    have hall : (pySplit '\n' d).all (fun l => !(strContains l "- [ ]")) = true := by
      rw [List.all_eq_true]
      intro x hx
      rw [htodo x hx]
      rfl
    simp only at hall ⊢
    rw [hall]
    rfl
  unfold _qualify_description _qualify_descriptionS
  dsimp only [popRules, PR_RULES, _yield_rule_adherence, List.map]
  rw [hv1, hv2]
  rfl

/-- C4: every description with no line containing `"story: "` and at least one
line containing `"- [ ]"` qualifies with an empty exclusion set to exactly the
two violations, in rule-registry order (story before todo). -/
theorem qualify_flags_missing_story_and_open_todos (d : String)
    (hstory : ∀ line ∈ pySplit '\n' d, strContains line "story: " = false)
    (htodo : ∃ line ∈ pySplit '\n' d, strContains line "- [ ]" = true) :
    _qualify_description d [] =
      Except.ok { ok := false,
                  violations := ["should have story link", "all todos should be done"] } := by
  have hv1 : Rule.validate
      { desc := "should have story link", quantifier := Quantifier.any,
        fn := fun x => strContains x "story: " } (pySplit '\n' d) =
        some "should have story link" := by
    rw [validate_any_eq _ _ rfl]
    have hany : (pySplit '\n' d).any (fun l => strContains l "story: ") = false := by
      rw [List.any_eq_false]
      intro x hx
      rw [hstory x hx]
      exact Bool.false_ne_true
    simp only at hany ⊢
    rw [hany]
    rfl
  have hv2 : Rule.validate
      { desc := "all todos should be done", quantifier := Quantifier.all,
        fn := fun x => !(strContains x "- [ ]") } (pySplit '\n' d) =
        some "all todos should be done" := by
    rw [validate_all_eq _ _ rfl]
    obtain ⟨line, hmem, hline⟩ := htodo
    have hall : (pySplit '\n' d).all (fun l => !(strContains l "- [ ]")) = false := by
      rcases hb : (pySplit '\n' d).all (fun l => !(strContains l "- [ ]")) with _ | _
      · rfl
      · rw [List.all_eq_true] at hb
        have := hb line hmem
        rw [hline] at this
        cases this
    simp only at hall ⊢
    rw [hall]
    rfl
  unfold _qualify_description _qualify_descriptionS
  dsimp only [popRules, PR_RULES, _yield_rule_adherence, List.map]
  rw [hv1, hv2]
  rfl

/-- C6: for every exclusion list containing a rule name not present in the
rule registry, qualification fails with a lookup error (`KeyError`) rather
than silently ignoring the unknown name. -/
theorem qualify_unknown_exclusion_errors (d : String) (ignore_list : List String)
    (n : String) (hn : n ∈ ignore_list) (hunknown : ∀ p ∈ PR_RULES, p.1 ≠ n) :
    ∃ e, _qualify_description d ignore_list = Except.error e := by
  obtain ⟨e, he⟩ := popRules_error_of_unknown ignore_list PR_RULES n hn hunknown
  refine ⟨e, ?_⟩
  unfold _qualify_description _qualify_descriptionS
  dsimp only
  rw [he]

/-- Witness for C6 at the concrete exclusion name `"frobnicate"`. -/
theorem qualify_unknown_exclusion_errors_witness :
    "frobnicate" ∈ ["frobnicate"] ∧ (∀ p ∈ PR_RULES, p.1 ≠ "frobnicate") ∧
      ∃ e, _qualify_description "x" ["frobnicate"] = Except.error e :=
  ⟨by decide, by decide,
   qualify_unknown_exclusion_errors "x" ["frobnicate"] "frobnicate" (by decide) (by decide)⟩

/-- C8: whenever qualification succeeds, the `ok` flag is true if and only if
the violations list is empty. -/
theorem qualify_ok_iff_no_violations (d : String) (ignore_list : List String)
    (r : ValidationResult) (h : _qualify_description d ignore_list = Except.ok r) :
    r.ok = true ↔ r.violations = [] := by
  unfold _qualify_description _qualify_descriptionS at h
  dsimp only at h
  cases hp : popRules PR_RULES ignore_list with
  | error e => rw [hp] at h; cases h
  | ok rules =>
    rw [hp] at h
    injection h with h2
    subst h2
    dsimp only
    apply ok_flag_iff_of_ne_empty
    intro i hi
    rw [List.mem_filterMap] at hi
    obtain ⟨o, ho, hoi⟩ := hi
    have ho' : o = some i := hoi
    subst ho'
    unfold _yield_rule_adherence at ho
    rw [List.mem_map] at ho
    obtain ⟨rule, hrmem, hval⟩ := ho
    rw [List.mem_map] at hrmem
    obtain ⟨p, hpmem, hpe⟩ := hrmem
    subst hpe
    rw [validate_eq_some_desc _ _ _ hval]
    exact PR_RULES_desc_ne_empty p
      ((popRules_ok_sublist ignore_list PR_RULES rules hp).subset hpmem)

/-- Witness for C8 at a concrete successful qualification. -/
theorem qualify_ok_iff_no_violations_witness :
    ({ ok := true, violations := [] } : ValidationResult).ok = true ↔
      ({ ok := true, violations := [] } : ValidationResult).violations = [] :=
  qualify_ok_iff_no_violations "story: x" [] { ok := true, violations := [] } rfl

/-- C10: qualification is deterministic and idempotent: with the registry
threaded as explicit state, one call leaves the registry unchanged (the Python
body pops from a copy), a second call on the resulting state returns the
identical result, and the same description with the same exclusion list always
yields the same `ValidationResult`. -/
theorem qualify_deterministic_idempotent (registry : List (String × Rule))
    (d : String) (ignore_list : List String) :
    (_qualify_descriptionS registry d ignore_list).2 = registry ∧
    _qualify_descriptionS (_qualify_descriptionS registry d ignore_list).2 d ignore_list
      = _qualify_descriptionS registry d ignore_list ∧
    _qualify_description d ignore_list = _qualify_description d ignore_list :=
  ⟨rfl, rfl, rfl⟩

/-- Witness for C3 at the concrete description from the spec's scenario. -/
theorem qualify_accepts_good_description_witness :
    _qualify_description "story: https://pivotaltracker.com/story/show/42\nAll done" [] =
      Except.ok { ok := true, violations := [] } :=
  qualify_accepts_good_description
    "story: https://pivotaltracker.com/story/show/42\nAll done" (by decide) (by decide)

/-- Witness for C4 at a concrete description lacking a story link and holding
an open todo. -/
theorem qualify_flags_missing_story_and_open_todos_witness :
    _qualify_description "intro\n- [ ] todo item" [] =
      Except.ok { ok := false,
                  violations := ["should have story link", "all todos should be done"] } :=
  qualify_flags_missing_story_and_open_todos "intro\n- [ ] todo item"
    (by decide) (by decide)

/-- C5: for every opened or reopened pull-request event, the link-prefixing
action derives the ticket id as the segment of `head.ref` before the first
`'-'` (the whole ref when it contains none), and patches the pull request with
the title unchanged, state `"open"`, and the new body equal to
`"story: https://pivotaltracker.com/story/show/<ticket>"` followed by the
separator `"\r\n\n"` followed by the original body. -/
theorem prefix_story_link_patch_characterization (w : World) (owner repo : String)
    (id : Option Nat) :
    ∃ ticket : String,
      '-' ∉ ticket.data ∧
      (w.pr.headRef.data = ticket.data ∨
        ∃ rest, w.pr.headRef.data = ticket.data ++ '-' :: rest) ∧
      _prefix_story_link_in_pull_request w owner repo id =
        [RemoteCall.getPullRequest owner repo id,
         RemoteCall.updatePullRequest owner repo id w.pr.title
           ("story: https://pivotaltracker.com/story/show/" ++ ticket ++
             "\r\n\n" ++ w.pr.body) "open"] := by
  obtain ⟨h1, h2⟩ := pySplitChar_headI_spec '-' w.pr.headRef.data
  refine ⟨String.mk ((pySplitChar '-' w.pr.headRef.data).headI), h1, h2, ?_⟩
  unfold _prefix_story_link_in_pull_request
  dsimp only
  rw [pySplit_headI]
  have hs : ∀ t : String,
      "story: " ++ ("https://pivotaltracker.com/story/show/" ++ t) =
        "story: https://pivotaltracker.com/story/show/" ++ t := by
    intro t
    rw [← String.append_assoc]
    rfl
  rw [hs]

/-- C1 (code bug): the edited-event ignore check compares label names against
the literal string `'pr_ignore'` instead of the configured
`GITHUB_IGNORE_LABEL`. With the environment configuring the ignore label
`"skip_all"`, a pull request labelled exactly `"skip_all"` still gets the
issues comment (the rules are applied), while a pull request labelled
`"pr_ignore"` — not the configured label — gets the good comment with all
rules skipped. -/
theorem ignore_label_env_var_unused_bug :
    GITHUB_IGNORE_LABEL bugEnv = "skip_all" ∧
    bugWorld.labels = [GITHUB_IGNORE_LABEL bugEnv] ∧
    _validate_pull_request_description bugWorld "o" "r" (some 7) =
      Except.ok [RemoteCall.getPullRequest "o" "r" (some 7),
                 RemoteCall.getIssue "o" "r" (some 7),
                 RemoteCall.commentOnPullRequest "o" "r" (some 7)
                   "issues:\n- should have story link"] ∧
    "issues:\n- should have story link" ≠ bugWorld.goodComment ∧
    bugWorld2.labels ≠ [GITHUB_IGNORE_LABEL bugEnv] ∧
    _validate_pull_request_description bugWorld2 "o" "r" (some 7) =
      Except.ok [RemoteCall.getPullRequest "o" "r" (some 7),
                 RemoteCall.getIssue "o" "r" (some 7),
                 RemoteCall.commentOnPullRequest "o" "r" (some 7)
                   bugWorld2.goodComment] :=
  ⟨rfl, rfl, rfl, by decide, by decide, rfl⟩

/-- C7 counterexample: the empty JSON object parses successfully, has no
`action` field and no `zen` field, yet the endpoint answers 400 (Python
`if not payload` treats the empty dict as "no payload"), not the claimed 500. -/
theorem endpoint_empty_object_counterexample :
    github_payload sampleWorld ParsedBody.falsy = (400, none) := rfl

/-- C7 (amended): a request body that is missing, unparseable, or parsing to a
falsy value (such as the empty JSON object) yields HTTP 400; a truthy payload
crashes with HTTP 500 when its `repo.full_name` contains no `'/'`; otherwise
a payload with no truthy `action` and no truthy `zen` yields HTTP 500; every
other dispatch outcome yields HTTP 200 with the acknowledgement body. -/
theorem endpoint_status_mapping_amended (w : World) (b : ParsedBody) :
    github_payload w b =
      match b with
      | ParsedBody.noPayload => (400, none)
      | ParsedBody.falsy => (400, none)
      | ParsedBody.truthy p =>
        match p.repo with
        | some full =>
          if '/' ∈ full.data then
            if pyTruthy p.zen || pyTruthy p.action then (200, some "beep boop")
            else (500, none)
          else (500, none)
        | none =>
          if pyTruthy p.zen || pyTruthy p.action then (200, some "beep boop")
          else (500, none) := by
  cases b with
  | noPayload => rfl
  | falsy => rfl
  | truthy p =>
    dsimp only [github_payload]
    cases hr : p.repo with
    | none =>
      have hro := resolveOwnerRepo_none p hr
      by_cases hza : pyTruthy p.zen = true ∨ pyTruthy p.action = true
      · obtain ⟨calls, hc⟩ :=
          handle_success_of_truthy w p GITHUB_OWNER GITHUB_REPO hro hza
        rw [hc]
        have hcond : (pyTruthy p.zen || pyTruthy p.action) = true := by
          rcases hza with h | h <;> simp [h]
        rw [if_pos hcond]
      · push_neg at hza
        obtain ⟨hz', ha'⟩ := hza
        have hz : pyTruthy p.zen = false := Bool.eq_false_iff.mpr hz'
        have ha : pyTruthy p.action = false := Bool.eq_false_iff.mpr ha'
        rw [handle_dispatch_error w p GITHUB_OWNER GITHUB_REPO hro hz ha]
        rw [if_neg (by simp [hz, ha])]
    | some full =>
      dsimp only
      by_cases hs : '/' ∈ full.data
      · obtain ⟨a, b', hro⟩ := resolveOwnerRepo_ok_of_contains p full hr hs
        rw [if_pos hs]
        by_cases hza : pyTruthy p.zen = true ∨ pyTruthy p.action = true
        · obtain ⟨calls, hc⟩ := handle_success_of_truthy w p a b' hro hza
          rw [hc]
          have hcond : (pyTruthy p.zen || pyTruthy p.action) = true := by
            rcases hza with h | h <;> simp [h]
          rw [if_pos hcond]
        · push_neg at hza
          obtain ⟨hz', ha'⟩ := hza
          have hz : pyTruthy p.zen = false := Bool.eq_false_iff.mpr hz'
          have ha : pyTruthy p.action = false := Bool.eq_false_iff.mpr ha'
          rw [handle_dispatch_error w p a b' hro hz ha]
          rw [if_neg (by simp [hz, ha])]
      · obtain ⟨e, hro⟩ := resolveOwnerRepo_error_of_not_contains p full hr hs
        rw [handle_crash_of_resolve_error w p e hro]
        rw [if_neg hs]

/-- C9 counterexample: a payload whose `zen` field is present but empty is not
treated as a ping (Python truthiness), falls through to the action check, and
the endpoint answers 500, not the claimed 200. -/
theorem zen_empty_string_counterexample :
    github_payload sampleWorld
        (ParsedBody.truthy { repo := none, zen := some "", action := none,
                             number := none }) = (500, none) := rfl

/-- C9 (amended): for every payload whose `zen` field holds a non-empty
(truthy) value and whose `repo.full_name`, when a repo is present, contains a
`'/'`, the dispatcher returns success with no remote calls issued, and the
endpoint responds HTTP 200 with the acknowledgement body. -/
theorem zen_ping_no_remote_calls_amended (w : World) (p : Payload)
    (hzen : pyTruthy p.zen = true)
    (hrepo : ∀ full, p.repo = some full → '/' ∈ full.data) :
    _handle_github_pull_request_event w p = Outcome.success [] ∧
    github_payload w (ParsedBody.truthy p) = (200, some "beep boop") := by
  have hro : ∃ a b, resolveOwnerRepo p = Except.ok (a, b) := by
    cases hr : p.repo with
    | none => exact ⟨GITHUB_OWNER, GITHUB_REPO, resolveOwnerRepo_none p hr⟩
    | some full => exact resolveOwnerRepo_ok_of_contains p full hr (hrepo full hr)
  obtain ⟨a, b, hro⟩ := hro
  have hh : _handle_github_pull_request_event w p = Outcome.success [] := by
    unfold _handle_github_pull_request_event
    rw [hro]
    dsimp only
    rw [if_pos hzen]
  refine ⟨hh, ?_⟩
  dsimp only [github_payload]
  rw [hh]

/-- Witness for C9 (amended) at a concrete ping payload. -/
theorem zen_ping_no_remote_calls_amended_witness :
    pyTruthy (some "Keep it logically awesome.") = true ∧
    _handle_github_pull_request_event sampleWorld
        { repo := none, zen := some "Keep it logically awesome.", action := none,
          number := none } = Outcome.success [] ∧
    github_payload sampleWorld
        (ParsedBody.truthy { repo := none, zen := some "Keep it logically awesome.",
                             action := none, number := none }) =
      (200, some "beep boop") :=
  ⟨by decide,
   (zen_ping_no_remote_calls_amended sampleWorld
     { repo := none, zen := some "Keep it logically awesome.", action := none,
       number := none } (by decide) (by intro full h; cases h)).1,
   (zen_ping_no_remote_calls_amended sampleWorld
     { repo := none, zen := some "Keep it logically awesome.", action := none,
       number := none } (by decide) (by intro full h; cases h)).2⟩

end Webhooks
